import Mathlib

/-!
Verification of the third-party CRD synchronization engine
(`internal/controller/third_party_crd_common.go`) of the dash0-operator
repository, via a shallow embedding of its data model and operations.

Conventions of the embedding:
* Go `map[string]string` values are modelled as association lists
  (`StringMap`) manipulated only through `mapGet` / `mapSet` / `mapsCopy`,
  which reproduce Go map lookup, assignment and `maps.Copy`.
* The external world (HTTP transport, Kubernetes API server) is modelled by
  oracles: a function from the attempt index to the outcome the environment
  produces for that attempt.
* `k8s.io/client-go/util/retry.OnError` together with
  `k8s.io/apimachinery/pkg/util/wait.ExponentialBackoff` is modelled by
  `retryOnError`: the condition function is invoked at most `Steps` times,
  a success stops immediately, a non-retriable error is returned
  immediately, and when the steps are exhausted the last error is returned.
  The sleep durations between attempts are not observable in the embedding;
  the backoff constants (`Duration`, `Factor`) are still carried so that
  statements about them can be made. `Factor` is a float in Go; it is
  represented here multiplied by ten (`1.5` becomes `15`, `1.3` becomes
  `13`).
-/

namespace Dash0

/-- Modelled from the spec: the synchronization status values
`dash0v1alpha1.Successful`, `dash0v1alpha1.PartiallySuccessful` and
`dash0v1alpha1.Failed` (their declaration is in the API types package,
which is not among the provided sources; only their use sites are). -/
inductive SynchronizationStatus
  | Successful
  | PartiallySuccessful
  | Failed
  deriving DecidableEq, Repr

/-- The `ApiConfig` struct: `{Endpoint string, Dataset string}`. -/
structure ApiConfig where
  Endpoint : String
  Dataset : String
  deriving DecidableEq, Repr

/-- The `retryableError` struct: wraps an error (its message) together with a
"retryable" classification flag. -/
structure retryableError where
  err : String
  retryable : Bool
  deriving DecidableEq, Repr

/-- Go `map[string]string`, modelled as an association list. All operations
on it go through `mapGet` / `mapSet` / `mapsCopy`, which keep the keys
unique exactly like a Go map does. -/
abbrev StringMap := List (String × String)

/-- Go map lookup `m[k]` (the `value, ok` form). -/
def mapGet : StringMap → String → Option String
  | [], _ => none
  | p :: rest, k => if p.1 = k then some p.2 else mapGet rest k

/-- Go map assignment `m[k] = v`: overwrites the value if the key is
present, appends the entry otherwise. -/
def mapSet : StringMap → String → String → StringMap
  | [], k, v => [(k, v)]
  | p :: rest, k, v =>
    if p.1 = k then (k, v) :: rest else p :: mapSet rest k v

/-- Go `maps.Copy(dst, src)`: inserts every entry of `src` into `dst`,
overwriting existing keys. -/
def mapsCopy (dst src : StringMap) : StringMap :=
  src.foldl (fun d p => mapSet d p.1 p.2) dst

/-- Go `map[string][]string` (validation issues per item name). -/
abbrev IssuesMap := List (String × List String)

/-- Go map lookup on a `map[string][]string`. -/
def issuesGet : IssuesMap → String → Option (List String)
  | [], _ => none
  | p :: rest, k => if p.1 = k then some p.2 else issuesGet rest k

/-- A `wait.Backoff` value. `Factor` is stored multiplied by ten because it
is a float in Go (`1.5` becomes `15`, `1.3` becomes `13`). -/
structure Backoff where
  Steps : Nat
  DurationMs : Nat
  FactorTimes10 : Nat
  deriving DecidableEq, Repr

/-- Core loop of `retry.OnError` / `wait.ExponentialBackoff`, generic in the
error type exactly like the Go function: `steps` is the remaining attempt
budget, `attempt` the number of attempts already performed, `lastErr` the
most recent retriable error. `fn attempt` is the outcome of the next attempt
(`none` means success). Returns the total number of attempts performed and
the final error (`none` on success; on exhaustion of the steps the last
retriable error, mirroring `OnError` replacing `ErrWaitTimeout` with
`lastErr`). -/
def retryOnErrorLoop {ε : Type} (retriable : ε → Bool) (fn : Nat → Option ε) :
    Nat → Nat → Option ε → Nat × Option ε
  | 0, attempt, lastErr => (attempt, lastErr)
  | steps + 1, attempt, _lastErr =>
    match fn attempt with
    | none => (attempt + 1, none)
    | some e =>
      if retriable e then retryOnErrorLoop retriable fn steps (attempt + 1) (some e)
      else (attempt + 1, some e)

/-- The `retry.OnError(backoff, retriable, fn)` call: at most `backoff.Steps`
attempts; a non-retriable error stops immediately. Returns the number of
attempts performed together with the final error. -/
def retryOnError {ε : Type} (backoff : Backoff) (retriable : ε → Bool)
    (fn : Nat → Option ε) : Nat × Option ε :=
  retryOnErrorLoop retriable fn backoff.Steps 0 none

/-- What the HTTP transport produces for one attempt of one request: either
a transport-level failure of `httpClient.Do` or a response carrying a status
code and a body. -/
inductive HttpAttemptOutcome
  | transportError (msg : String)
  | response (statusCode : Nat) (body : String)

/-- The `HttpRequestWithItemName` struct. The `Request` field (an
`*http.Request`) is represented by its URL together with the behaviour the
HTTP client exhibits when executing it: the outcome the transport returns
for each attempt. -/
structure HttpRequestWithItemName where
  ItemName : String
  url : String
  attemptOutcome : Nat → HttpAttemptOutcome

/-- The error message built by `convertNon2xxStatusCodeToError` (the
response body is always readable in the embedding; the read-error branch of
the source only changes the message text). -/
def convertNon2xxStatusCodeToError (shortName : String)
    (req : HttpRequestWithItemName) (statusCode : Nat) (body : String) :
    String :=
  "unexpected status code " ++ toString statusCode ++
    " when updating/creating/deleting the " ++ shortName ++ " \"" ++
    req.ItemName ++ "\" at " ++ req.url ++ ", response body is " ++ body

/-- One execution of the request (`executeSingleHttpRequest`): a transport
failure yields a retryable error; a non-2xx status yields a status-code
error which is non-retryable for 4xx and retryable for everything else; a
2xx response is a success (`none`). `attempt` selects the outcome the
transport produces for this attempt. -/
def executeSingleHttpRequest (shortName : String)
    (req : HttpRequestWithItemName) (attempt : Nat) :
    Option retryableError :=
  match req.attemptOutcome attempt with
  | .transportError msg => some { err := msg, retryable := true }
  | .response statusCode body =>
    if statusCode < 200 ∨ 300 ≤ statusCode then
      let statusCodeError := convertNon2xxStatusCodeToError shortName req statusCode body
      if 400 ≤ statusCode ∧ statusCode < 500 then
        some { err := statusCodeError, retryable := false }
      else
        some { err := statusCodeError, retryable := true }
    else none

/-- The `executeSingleHttpRequestWithRetry` call:
`retry.OnError(wait.Backoff{Steps: 3, Duration: GetHttpRetryDelay(),
Factor: 1.5}, ...)` where the retriable predicate unwraps the
`retryableError` (every error produced by `executeSingleHttpRequest` is a
`retryableError`, so the `errors.As` in the source always succeeds).
Returns the number of attempts performed and the final error. -/
def executeSingleHttpRequestWithRetry (shortName : String)
    (httpRetryDelayMs : Nat) (req : HttpRequestWithItemName) :
    Nat × Option retryableError :=
  retryOnError
    { Steps := 3, DurationMs := httpRetryDelayMs, FactorTimes10 := 15 }
    (fun e => e.retryable)
    (executeSingleHttpRequest shortName req)

example :
    (executeSingleHttpRequestWithRetry "dashboard" 5000
      { ItemName := "a", url := "u",
        attemptOutcome := fun _ => .response 503 "oops" }).1 = 3 := by rfl

example :
    (executeSingleHttpRequestWithRetry "dashboard" 5000
      { ItemName := "a", url := "u",
        attemptOutcome := fun _ => .response 404 "gone" }).1 = 1 := by rfl

example :
    executeSingleHttpRequestWithRetry "dashboard" 5000
      { ItemName := "a", url := "u",
        attemptOutcome := fun _ => .response 200 "" }
      = (1, none) := by rfl

/-- A third-party resource instance: the engine only reads its namespace
and name (`GetNamespace()` / `GetName()`). -/
structure ThirdPartyResource where
  ns : String
  name : String
  deriving DecidableEq, Repr

/-- The Dash0 monitoring resource, identified by namespace and name (the
fields the engine reads from it). -/
structure MonitoringResource where
  ns : String
  name : String
  deriving DecidableEq, Repr

/-- The `apiAction` enumeration (`upsert`, `delete`). -/
inductive apiAction
  | upsert
  | delete
  deriving DecidableEq, Repr

/-- The `preconditionValidationResult` struct. Pointer fields are `Option`;
an absent field of the Go zero value `&preconditionValidationResult{
synchronizeResource: false}` is `none` / `""`. -/
structure preconditionValidationResult where
  synchronizeResource : Bool
  thirdPartyResource : Option ThirdPartyResource := none
  monitoringResource : Option MonitoringResource := none
  authToken : String := ""
  apiEndpoint : String := ""
  dataset : String := ""
  k8sNamespace : String := ""
  k8sName : String := ""
  deriving DecidableEq, Repr

/-- The result `&preconditionValidationResult{synchronizeResource: false}`
returned by every failing precondition check. -/
def noSynchronizationResult : preconditionValidationResult :=
  { synchronizeResource := false }

/-- Result of `util.FindUniqueOrMostRecentResourceInScope` for the
monitoring resource in the instance's namespace, as consumed by
`validatePreconditions`: an error, no resource, or a resource. -/
inductive MonitoringResourceLookupResult
  | lookupError (msg : String)
  | noResource
  | found (m : MonitoringResource)

/-- The parts of the `ThirdPartyResourceReconciler` and of the cluster state
that `validatePreconditions` consults: the monitoring-resource lookup
outcome, the per-kind synchronization-enabled switch, the atomically loaded
`ApiConfig` (`none` is a nil pointer) and the configured auth token. -/
structure PreconditionEnv where
  lookup : MonitoringResourceLookupResult
  isSynchronizationEnabled : MonitoringResource → Bool
  apiConfig : Option ApiConfig
  authToken : String

/-- The `isValidApiConfig` helper: non-nil and non-empty endpoint. -/
def isValidApiConfig : Option ApiConfig → Bool
  | some apiConfig => apiConfig.Endpoint != ""
  | none => false

/-- Modelled from the spec: `util.DatasetDefault`, the well-known default
dataset constant (its declaration is not among the provided sources, only
its use site in `validatePreconditions`). -/
def DatasetDefault : String := "default"

/-- The `validatePreconditions` function: checks, in order, (1) that the
monitoring-resource lookup neither errs nor comes back empty, (2) that
synchronization for the kind is enabled, (3) that the ApiConfig is present
with a non-empty endpoint (`isValidApiConfig`), (4) that the auth token is
non-empty; the first failing check returns
`&preconditionValidationResult{synchronizeResource: false}`. On success the
dataset defaults to `util.DatasetDefault` when unset. The function is total:
it never returns an error. -/
def validatePreconditions (env : PreconditionEnv)
    (thirdPartyResource : ThirdPartyResource) :
    preconditionValidationResult :=
  match env.lookup with
  | .lookupError _ => noSynchronizationResult
  | .noResource => noSynchronizationResult
  | .found monitoringResource =>
    if ¬ env.isSynchronizationEnabled monitoringResource then
      noSynchronizationResult
    else
      -- the source checks `isValidApiConfig(apiConfig)`, i.e. non-nil
      -- pointer and non-empty endpoint; the two cases are split here to
      -- name the loaded config
      match env.apiConfig with
      | none => noSynchronizationResult
      | some apiConfig =>
        if apiConfig.Endpoint == "" then noSynchronizationResult
        else if env.authToken == "" then noSynchronizationResult
        else
          { synchronizeResource := true
            thirdPartyResource := some thirdPartyResource
            monitoringResource := some monitoringResource
            authToken := env.authToken
            apiEndpoint := apiConfig.Endpoint
            dataset :=
              if apiConfig.Dataset == "" then DatasetDefault
              else apiConfig.Dataset
            k8sNamespace := thirdPartyResource.ns
            k8sName := thirdPartyResource.name }

/-- Loop of `executeAllHttpRequests`: executes the requests in order,
appending the item name to the successes on a `nil` error and recording the
error message under the item name otherwise. -/
def executeAllHttpRequestsLoop (shortName : String) (httpRetryDelayMs : Nat) :
    List HttpRequestWithItemName → List String × StringMap →
    List String × StringMap
  | [], acc => acc
  | req :: rest, (succ, httpErrors) =>
    match (executeSingleHttpRequestWithRetry shortName httpRetryDelayMs req).2 with
    | some e =>
      executeAllHttpRequestsLoop shortName httpRetryDelayMs rest
        (succ, mapSet httpErrors req.ItemName e.err)
    | none =>
      executeAllHttpRequestsLoop shortName httpRetryDelayMs rest
        (succ ++ [req.ItemName], httpErrors)

/-- The `executeAllHttpRequests` function. The successes slice is set to
`nil` when empty (`none` models the nil slice, `some` a non-empty one). -/
def executeAllHttpRequests (shortName : String) (httpRetryDelayMs : Nat)
    (allRequests : List HttpRequestWithItemName) :
    Option (List String) × StringMap :=
  let result :=
    executeAllHttpRequestsLoop shortName httpRetryDelayMs allRequests ([], [])
  (if result.1.length = 0 then none else some result.1, result.2)

/-- Go `len` on a possibly-nil slice (`len(nil) = 0`). -/
def lenOpt (l : Option (List String)) : Nat :=
  match l with
  | none => 0
  | some l => l.length

/-- Outcome the Kubernetes API server produces for one attempt of the
status-write loop in `writeSynchronizationResult`: the re-fetch of the
monitoring resource fails, the status update fails, or both succeed. -/
inductive StatusWriteAttemptOutcome
  | getFails (msg : String)
  | updateFails (msg : String)
  | ok

/-- The Kubernetes API server's behaviour during the status-write loop,
as an oracle per attempt. -/
structure StatusWriterEnv where
  attemptOutcome : Nat → StatusWriteAttemptOutcome

/-- The backoff used by `writeSynchronizationResult`:
`wait.Backoff{Steps: 3, Duration: 1 * time.Second, Factor: 1.3}`. -/
def statusWriteBackoff : Backoff :=
  { Steps := 3, DurationMs := 1000, FactorTimes10 := 13 }

/-- What `writeSynchronizationResult` did: the overall result it computed
for the instance (lines 752-757 of the source), the number of re-fetch +
merge + write attempts performed, whether one of them succeeded, and
whether the final give-up failure was logged. The Go function returns
nothing and propagates no error; the record only makes its effects
observable. -/
structure WriteSynchronizationResultOutcome where
  result : SynchronizationStatus
  attempts : Nat
  persisted : Bool
  finalFailureLogged : Bool
  deriving DecidableEq, Repr

/-- The `writeSynchronizationResult` function: computes the overall result
(`Successful` when at least one success and no issues and no errors,
`PartiallySuccessful` when at least one success otherwise, `Failed` in
every other case) and then retries the whole re-fetch + merge + write
sequence via `retry.OnError` with `statusWriteBackoff` and an
always-retriable predicate; exhaustion is logged and discarded. -/
def writeSynchronizationResult (writer : StatusWriterEnv)
    (_monitoringResource : MonitoringResource)
    (_thirdPartyResource : ThirdPartyResource) (_itemsTotal : Nat)
    (succesfullySynchronized : Option (List String))
    (validationIssuesPerItem : IssuesMap)
    (synchronizationErrorsPerItem : StringMap) :
    WriteSynchronizationResultOutcome :=
  let result : SynchronizationStatus :=
    if lenOpt succesfullySynchronized > 0 ∧
        validationIssuesPerItem.length = 0 ∧
        synchronizationErrorsPerItem.length = 0 then
      .Successful
    else if lenOpt succesfullySynchronized > 0 then .PartiallySuccessful
    else .Failed
  let retryOutcome :=
    retryOnError statusWriteBackoff (fun _ => true)
      (fun attempt =>
        match writer.attemptOutcome attempt with
        | .getFails msg => some msg
        | .updateFails msg => some msg
        | .ok => none)
  { result := result
    attempts := retryOutcome.1
    persisted := retryOutcome.2.isNone
    finalFailureLogged := retryOutcome.2.isSome }

/-- Output of the per-kind `MapResourceToHttpRequests` collaborator: total
eligible item count, the prepared requests, the validation issues and the
mapping-stage synchronization errors. (A nil Go map and an empty one are
observationally equal in `synchronizeViaApi` — `len`, iteration and
`maps.Copy` destination after `make` — so both are the empty list.) -/
structure MapResourceToHttpRequestsResult where
  itemsTotal : Nat
  httpRequests : List HttpRequestWithItemName
  validationIssues : IssuesMap
  synchronizationErrors : StringMap

/-- Record of one `writeSynchronizationResult` invocation made by
`synchronizeViaApi`: the arguments it passed and what the call did. -/
structure StatusWriteCall where
  monitoringResource : MonitoringResource
  qualifiedName : String
  itemsTotal : Nat
  succesfullySynchronized : Option (List String)
  validationIssuesPerItem : IssuesMap
  synchronizationErrorsPerItem : StringMap
  write : WriteSynchronizationResultOutcome
  deriving DecidableEq, Repr

/-- Observable outcome of one `synchronizeViaApi` run: whether the
"did not contain any ..., skipping." log line was emitted, the item names
of the HTTP requests actually executed against the external API, and the
`writeSynchronizationResult` invocation when the call was reached
(`none` when the run returned before it). -/
structure SynchronizationOutcome where
  skippedLogEmitted : Bool
  executedRequests : List String
  statusWrite : Option StatusWriteCall
  deriving DecidableEq, Repr

/-- The `synchronizeViaApi` function: validates preconditions (returning
early when they fail), maps the resource to HTTP requests via the per-kind
collaborator, logs the nothing-to-do line when requests, issues and errors
are all empty, executes the requests when there are any, merges HTTP-stage
errors into the mapping-stage error map via `maps.Copy`, and calls
`writeSynchronizationResult`. -/
def synchronizeViaApi (env : PreconditionEnv) (writer : StatusWriterEnv)
    (shortName : String) (httpRetryDelayMs : Nat)
    (thirdPartyResource : ThirdPartyResource)
    (mapResourceToHttpRequests :
      preconditionValidationResult → apiAction → MapResourceToHttpRequestsResult)
    (action : apiAction) : SynchronizationOutcome :=
  let preconditionChecksResult := validatePreconditions env thirdPartyResource
  if ¬ preconditionChecksResult.synchronizeResource then
    { skippedLogEmitted := false, executedRequests := [], statusWrite := none }
  else
    let mapped := mapResourceToHttpRequests preconditionChecksResult action
    let skippedLogEmitted :=
      mapped.httpRequests.length = 0 ∧ mapped.validationIssues.length = 0 ∧
        mapped.synchronizationErrors.length = 0
    -- note: the source only logs here and does not return; execution
    -- continues into the status write below
    let executed :=
      if mapped.httpRequests.length > 0 then
        executeAllHttpRequests shortName httpRetryDelayMs mapped.httpRequests
      else (none, [])
    let succesfullySynchronized := executed.1
    let httpErrors := executed.2
    let synchronizationErrors :=
      if httpErrors.length > 0 then
        mapsCopy mapped.synchronizationErrors httpErrors
      else mapped.synchronizationErrors
    -- the monitoring-resource pointer is non-nil whenever
    -- synchronizeResource is true; the default is unreachable
    let monitoringResource :=
      preconditionChecksResult.monitoringResource.getD { ns := "", name := "" }
    let qualifiedName := thirdPartyResource.ns ++ "/" ++ thirdPartyResource.name
    { skippedLogEmitted := decide skippedLogEmitted
      executedRequests :=
        if mapped.httpRequests.length > 0 then
          mapped.httpRequests.map (fun r => r.ItemName)
        else []
      statusWrite := some
        { monitoringResource := monitoringResource
          qualifiedName := qualifiedName
          itemsTotal := mapped.itemsTotal
          succesfullySynchronized := succesfullySynchronized
          validationIssuesPerItem := mapped.validationIssues
          synchronizationErrorsPerItem := synchronizationErrors
          write :=
            writeSynchronizationResult writer monitoringResource
              thirdPartyResource mapped.itemsTotal succesfullySynchronized
              mapped.validationIssues synchronizationErrors } }

/-!
Sequential model of the resource-watch lifecycle
(`maybeStartWatchingThirdPartyResources` / `stopWatchingThirdPartyResources`
with the stop-function lock held for the whole body, so each call is one
atomic state transformation). Sub-controllers are identified by the order
in which they were started.
-/

/-- Lifecycle state per third-party kind: the controller stop function
(cancellation handle, `none` is the nil pointer), whether the cache still
holds an informer for the kind, how many sub-controllers have been started
so far (used to give fresh identities), and which ones have had their stop
function invoked. -/
structure LifecycleState where
  controllerStopFunction : Option Nat
  informerInstalled : Bool
  controllersStarted : Nat
  cancelledControllers : List Nat
  deriving DecidableEq, Repr

/-- The environment one `maybeStartWatchingThirdPartyResources` call runs
against: the CRD-existence flag, the loaded `ApiConfig`, and whether
`controller.NewTypedUnmanaged` or `resourceController.Watch` fail. -/
structure StartAttemptEnv where
  crdExists : Bool
  apiConfig : Option ApiConfig
  controllerCreationFails : Bool
  watchRegistrationFails : Bool

/-- Modelled from the spec: the `IsWatching()` method of
`ThirdPartyResourceReconciler` (its implementation is not among the
provided sources; per the spec "the cancellation handle is non-nil if and
only if a sub-controller goroutine/task is active"). -/
def IsWatching (s : LifecycleState) : Bool :=
  s.controllerStopFunction.isSome

/-- The `maybeStartWatchingThirdPartyResources` function as one atomic
transformation (the lock is held for the whole body): return unchanged when
already watching, when the CRD does not exist, when the ApiConfig is
invalid (`isStartup` only selects the log message), or when constructing
the controller or registering the watch fails; otherwise record the stop
function of the newly started sub-controller. -/
def maybeStartWatchingThirdPartyResources (env : StartAttemptEnv)
    (_isStartup : Bool) (s : LifecycleState) : LifecycleState :=
  if IsWatching s then s
  else if ¬ env.crdExists then s
  else if ¬ isValidApiConfig env.apiConfig then s
  else if env.controllerCreationFails then s
  else if env.watchRegistrationFails then s
  else
    { s with
      controllerStopFunction := some s.controllersStarted
      controllersStarted := s.controllersStarted + 1 }

/-- The `stopWatchingThirdPartyResources` function as one atomic
transformation: when no stop function is set, log and return unchanged;
otherwise remove the informer (a removal failure is only logged), invoke
the stop function and clear it. -/
def stopWatchingThirdPartyResources (s : LifecycleState) : LifecycleState :=
  match s.controllerStopFunction with
  | none => s
  | some cancelFunc =>
    { s with
      informerInstalled := false
      cancelledControllers := cancelFunc :: s.cancelledControllers
      controllerStopFunction := none }

namespace Interleaving

/-!
Interleaved small-step model of concurrent
`maybeStartWatchingThirdPartyResources` calls for one kind. Each thread
executes the function's body; the critical section (everything between
`ControllerStopFunctionLock().Lock()` and the deferred unlock) is broken
into its atomic accesses to the shared state. The spawned sub-controller
goroutine runs concurrently: entering `resourceController.Start`, returning
from it, and the unconditional `SetControllerStopFunction(nil)` that
follows are separate atomic steps.
-/

/-- Phase of one sub-controller goroutine: spawned but `Start` not yet
entered, running inside `Start`, returned from `Start` but the stop
function not yet cleared, and done. -/
inductive CtrlPhase
  | created
  | running
  | exitedPendingClear
  | exitedCleared
  deriving DecidableEq, Repr

/-- Program counter of one thread executing
`maybeStartWatchingThirdPartyResources`. -/
inductive ThreadPhase
  | idle
  | locked
  | checkedNotWatching
  | spawnedController
  | finished
  deriving DecidableEq, Repr

/-- Whether a thread currently holds the stop-function lock. -/
def ThreadPhase.inCriticalSection : ThreadPhase → Bool
  | .locked => true
  | .checkedNotWatching => true
  | .spawnedController => true
  | _ => false

/-- Shared state: the lock (holder thread id), the controller stop function
(the single shared slot; `some c` is a handle for sub-controller `c`), the
thread program counters, the sub-controller phases (`none` means no
sub-controller with that id was spawned), and a fresh-id counter. -/
structure SysState where
  lock : Option Nat
  controllerStopFunction : Option Nat
  threads : Nat → ThreadPhase
  ctrls : Nat → Option CtrlPhase
  nextCtrl : Nat

/-- Initial state: lock free, no stop function, all threads about to call
`maybeStartWatchingThirdPartyResources`, no sub-controller. -/
def initState : SysState :=
  { lock := none
    controllerStopFunction := none
    threads := fun _ => .idle
    ctrls := fun _ => none
    nextCtrl := 0 }

/-- One atomic step of the system. Thread steps follow the source of
`maybeStartWatchingThirdPartyResources`: acquire the lock; check
`IsWatching` (return when a stop function is set); the CRD-existence check,
the ApiConfig check, a `NewTypedUnmanaged` failure and a `Watch` failure
all return while releasing the lock without spawning anything
(`abortStart`); otherwise set the stop function and launch the controller
goroutine (`spawnController`), then release the lock. Controller steps:
enter `Start`, return from `Start` (error or cancellation), and the
goroutine's unconditional `SetControllerStopFunction(nil)` afterwards. -/
inductive Step : SysState → SysState → Prop
  | acquireLock (s : SysState) (t : Nat)
      (ht : s.threads t = .idle) (hl : s.lock = none) :
      Step s { s with
        lock := some t
        threads := Function.update s.threads t .locked }
  | alreadyWatching (s : SysState) (t c : Nat)
      (ht : s.threads t = .locked)
      (hw : s.controllerStopFunction = some c) :
      Step s { s with
        lock := none
        threads := Function.update s.threads t .finished }
  | notWatching (s : SysState) (t : Nat)
      (ht : s.threads t = .locked)
      (hw : s.controllerStopFunction = none) :
      Step s { s with
        threads := Function.update s.threads t .checkedNotWatching }
  | abortStart (s : SysState) (t : Nat)
      (ht : s.threads t = .checkedNotWatching) :
      Step s { s with
        lock := none
        threads := Function.update s.threads t .finished }
  | spawnController (s : SysState) (t : Nat)
      (ht : s.threads t = .checkedNotWatching) :
      Step s { s with
        controllerStopFunction := some s.nextCtrl
        ctrls := Function.update s.ctrls s.nextCtrl (some .created)
        nextCtrl := s.nextCtrl + 1
        threads := Function.update s.threads t .spawnedController }
  | releaseLock (s : SysState) (t : Nat)
      (ht : s.threads t = .spawnedController) :
      Step s { s with
        lock := none
        threads := Function.update s.threads t .finished }
  | controllerStart (s : SysState) (c : Nat)
      (hc : s.ctrls c = some .created) :
      Step s { s with ctrls := Function.update s.ctrls c (some .running) }
  | controllerExit (s : SysState) (c : Nat)
      (hc : s.ctrls c = some .running) :
      Step s { s with
        ctrls := Function.update s.ctrls c (some .exitedPendingClear) }
  | controllerClearStopFunction (s : SysState) (c : Nat)
      (hc : s.ctrls c = some .exitedPendingClear) :
      Step s { s with
        controllerStopFunction := none
        ctrls := Function.update s.ctrls c (some .exitedCleared) }

/-- States reachable from the initial state by interleaved steps. -/
def Reachable (s : SysState) : Prop :=
  Relation.ReflTransGen Step initState s

/-- A sub-controller is active: its goroutine has been launched and its
`Start` call has not yet returned. -/
def Active (s : SysState) (c : Nat) : Prop :=
  s.ctrls c = some .created ∨ s.ctrls c = some .running

/-- Inductive invariant of the lifecycle system. -/
structure Inv (s : SysState) : Prop where
  lockOwner : ∀ t, (s.threads t).inCriticalSection = true → s.lock = some t
  handleNoneAtCheck : ∀ t, s.threads t = .checkedNotWatching →
    s.controllerStopFunction = none
  activeHandle : ∀ c, Active s c → s.controllerStopFunction = some c
  pendingHandle : ∀ c, s.ctrls c = some .exitedPendingClear →
    s.controllerStopFunction = some c
  fresh : ∀ c, s.nextCtrl ≤ c → s.ctrls c = none

/-- First state of the witness trace: thread 0 has acquired the lock. -/
def wState1 : SysState :=
  { initState with
    lock := some 0
    threads := Function.update initState.threads 0 .locked }

/-- Second state of the witness trace: thread 0 observed that no stop
function is set. -/
def wState2 : SysState :=
  { wState1 with
    threads := Function.update wState1.threads 0 .checkedNotWatching }

/-- Third state of the witness trace: thread 0 has set the stop function
and spawned sub-controller 0. -/
def wState3 : SysState :=
  { wState2 with
    controllerStopFunction := some wState2.nextCtrl
    ctrls := Function.update wState2.ctrls wState2.nextCtrl (some .created)
    nextCtrl := wState2.nextCtrl + 1
    threads := Function.update wState2.threads 0 .spawnedController }

theorem inv_init : Inv initState := by
  refine ⟨?_, ?_, ?_, ?_, ?_⟩ <;> intro x hx
  · simp [initState, ThreadPhase.inCriticalSection] at hx
  · simp [initState] at hx
  · rcases hx with hx | hx <;> simp [initState] at hx
  · simp [initState] at hx
  · rfl

theorem inv_step {s s' : SysState} (h : Inv s) (hs : Step s s') : Inv s' := by
  cases hs with
  | acquireLock t ht hl =>
    refine ⟨fun t' ht' => ?_, fun t' ht' => ?_,
      h.activeHandle, h.pendingHandle, h.fresh⟩
    · simp only at ht' ⊢
      by_cases he : t' = t
      · subst he; rfl
      · rw [Function.update_noteq he] at ht'
        exact absurd (h.lockOwner t' ht') (by rw [hl]; simp)
    · simp only at ht' ⊢
      by_cases he : t' = t
      · rw [he, Function.update_same] at ht'; cases ht'
      · rw [Function.update_noteq he] at ht'
        exact h.handleNoneAtCheck t' ht'
  | alreadyWatching t c ht hw =>
    refine ⟨fun t' ht' => ?_, fun t' ht' => ?_,
      h.activeHandle, h.pendingHandle, h.fresh⟩
    · simp only at ht' ⊢
      by_cases he : t' = t
      · rw [he, Function.update_same] at ht'
        simp [ThreadPhase.inCriticalSection] at ht'
      · rw [Function.update_noteq he] at ht'
        have h1 := h.lockOwner t' ht'
        have h2 := h.lockOwner t (by rw [ht]; rfl)
        rw [h1] at h2
        exact absurd (Option.some.inj h2) he
    · simp only at ht' ⊢
      by_cases he : t' = t
      · rw [he, Function.update_same] at ht'; cases ht'
      · rw [Function.update_noteq he] at ht'
        exact h.handleNoneAtCheck t' ht'
  | notWatching t ht hw =>
    refine ⟨fun t' ht' => ?_, fun t' _ => ?_,
      h.activeHandle, h.pendingHandle, h.fresh⟩
    · simp only at ht' ⊢
      by_cases he : t' = t
      · subst he; exact h.lockOwner t' (by rw [ht]; rfl)
      · rw [Function.update_noteq he] at ht'
        exact h.lockOwner t' ht'
    · simp only
      exact hw
  | abortStart t ht =>
    refine ⟨fun t' ht' => ?_, fun t' ht' => ?_,
      h.activeHandle, h.pendingHandle, h.fresh⟩
    · simp only at ht' ⊢
      by_cases he : t' = t
      · rw [he, Function.update_same] at ht'
        simp [ThreadPhase.inCriticalSection] at ht'
      · rw [Function.update_noteq he] at ht'
        have h1 := h.lockOwner t' ht'
        have h2 := h.lockOwner t (by rw [ht]; rfl)
        rw [h1] at h2
        exact absurd (Option.some.inj h2) he
    · simp only at ht' ⊢
      by_cases he : t' = t
      · rw [he, Function.update_same] at ht'; cases ht'
      · rw [Function.update_noteq he] at ht'
        exact h.handleNoneAtCheck t' ht'
  | spawnController t ht =>
    have hnone : s.controllerStopFunction = none := h.handleNoneAtCheck t ht
    refine ⟨fun t' ht' => ?_, fun t' ht' => ?_, fun c hc => ?_,
      fun c hc => ?_, fun c hc => ?_⟩
    · simp only at ht' ⊢
      by_cases he : t' = t
      · subst he; exact h.lockOwner t' (by rw [ht]; rfl)
      · rw [Function.update_noteq he] at ht'
        exact h.lockOwner t' ht'
    · simp only at ht' ⊢
      by_cases he : t' = t
      · rw [he, Function.update_same] at ht'; cases ht'
      · rw [Function.update_noteq he] at ht'
        have h1 := h.lockOwner t' (by rw [ht']; rfl)
        have h2 := h.lockOwner t (by rw [ht]; rfl)
        rw [h1] at h2
        exact absurd (Option.some.inj h2) he
    · rcases hc with hc | hc <;> simp only at hc ⊢ <;>
        by_cases he : c = s.nextCtrl
      · rw [he]
      · rw [Function.update_noteq he] at hc
        exact absurd (h.activeHandle c (Or.inl hc)) (by rw [hnone]; simp)
      · rw [he]
      · rw [Function.update_noteq he] at hc
        exact absurd (h.activeHandle c (Or.inr hc)) (by rw [hnone]; simp)
    · simp only at hc ⊢
      by_cases he : c = s.nextCtrl
      · rw [he, Function.update_same] at hc; simp at hc
      · rw [Function.update_noteq he] at hc
        exact absurd (h.pendingHandle c hc) (by rw [hnone]; simp)
    · simp only at hc ⊢
      have hne : c ≠ s.nextCtrl := by omega
      rw [Function.update_noteq hne]
      exact h.fresh c (by omega)
  | releaseLock t ht =>
    refine ⟨fun t' ht' => ?_, fun t' ht' => ?_,
      h.activeHandle, h.pendingHandle, h.fresh⟩
    · simp only at ht' ⊢
      by_cases he : t' = t
      · rw [he, Function.update_same] at ht'
        simp [ThreadPhase.inCriticalSection] at ht'
      · rw [Function.update_noteq he] at ht'
        have h1 := h.lockOwner t' ht'
        have h2 := h.lockOwner t (by rw [ht]; rfl)
        rw [h1] at h2
        exact absurd (Option.some.inj h2) he
    · simp only at ht' ⊢
      by_cases he : t' = t
      · rw [he, Function.update_same] at ht'; cases ht'
      · rw [Function.update_noteq he] at ht'
        exact h.handleNoneAtCheck t' ht'
  | controllerStart c hc =>
    refine ⟨h.lockOwner, h.handleNoneAtCheck, fun c' hc' => ?_,
      fun c' hc' => ?_, fun c' hc' => ?_⟩
    · rcases hc' with hc' | hc' <;> simp only at hc' ⊢ <;>
        by_cases he : c' = c
      · subst he; exact h.activeHandle c' (Or.inl hc)
      · rw [Function.update_noteq he] at hc'
        exact h.activeHandle c' (Or.inl hc')
      · subst he; exact h.activeHandle c' (Or.inl hc)
      · rw [Function.update_noteq he] at hc'
        exact h.activeHandle c' (Or.inr hc')
    · simp only at hc' ⊢
      by_cases he : c' = c
      · rw [he, Function.update_same] at hc'; simp at hc'
      · rw [Function.update_noteq he] at hc'
        exact h.pendingHandle c' hc'
    · simp only at hc' ⊢
      have hcc : s.ctrls c' = none := h.fresh c' hc'
      by_cases he : c' = c
      · subst he; rw [hcc] at hc; cases hc
      · rw [Function.update_noteq he]; exact hcc
  | controllerExit c hc =>
    refine ⟨h.lockOwner, h.handleNoneAtCheck, fun c' hc' => ?_,
      fun c' hc' => ?_, fun c' hc' => ?_⟩
    · rcases hc' with hc' | hc' <;> simp only at hc' ⊢ <;>
        by_cases he : c' = c
      · rw [he, Function.update_same] at hc'; simp at hc'
      · rw [Function.update_noteq he] at hc'
        exact h.activeHandle c' (Or.inl hc')
      · rw [he, Function.update_same] at hc'; simp at hc'
      · rw [Function.update_noteq he] at hc'
        exact h.activeHandle c' (Or.inr hc')
    · simp only at hc' ⊢
      by_cases he : c' = c
      · subst he; exact h.activeHandle c' (Or.inr hc)
      · rw [Function.update_noteq he] at hc'
        exact h.pendingHandle c' hc'
    · simp only at hc' ⊢
      have hcc : s.ctrls c' = none := h.fresh c' hc'
      by_cases he : c' = c
      · subst he; rw [hcc] at hc; cases hc
      · rw [Function.update_noteq he]; exact hcc
  | controllerClearStopFunction c hc =>
    have hhandle : s.controllerStopFunction = some c := h.pendingHandle c hc
    refine ⟨h.lockOwner, fun t' ht' => ?_, fun c' hc' => ?_,
      fun c' hc' => ?_, fun c' hc' => ?_⟩
    · rfl
    · rcases hc' with hc' | hc' <;> simp only at hc' ⊢ <;>
        by_cases he : c' = c
      · rw [he, Function.update_same] at hc'; simp at hc'
      · rw [Function.update_noteq he] at hc'
        have h1 := h.activeHandle c' (Or.inl hc')
        rw [hhandle] at h1
        exact absurd (Option.some.inj h1).symm he
      · rw [he, Function.update_same] at hc'; simp at hc'
      · rw [Function.update_noteq he] at hc'
        have h1 := h.activeHandle c' (Or.inr hc')
        rw [hhandle] at h1
        exact absurd (Option.some.inj h1).symm he
    · simp only at hc' ⊢
      by_cases he : c' = c
      · rw [he, Function.update_same] at hc'; simp at hc'
      · rw [Function.update_noteq he] at hc'
        have h1 := h.pendingHandle c' hc'
        rw [hhandle] at h1
        exact absurd (Option.some.inj h1).symm he
    · simp only at hc' ⊢
      have hcc : s.ctrls c' = none := h.fresh c' hc'
      by_cases he : c' = c
      · subst he; rw [hcc] at hc; cases hc
      · rw [Function.update_noteq he]; exact hcc

theorem inv_reachable {s : SysState} (h : Reachable s) : Inv s := by
  induction h with
  | refl => exact inv_init
  | tail _ hstep ih => exact inv_step ih hstep

end Interleaving

/-! ### Properties of the Go map model -/

theorem mapGet_mapSet_self (m : StringMap) (k v : String) :
    mapGet (mapSet m k v) k = some v := by
  induction m with
  | nil => simp [mapSet, mapGet]
  | cons p rest ih =>
    by_cases h : p.1 = k <;> simp [mapSet, mapGet, h, ih]

theorem mapGet_mapSet_ne (m : StringMap) {k k' : String} (v : String)
    (h : k' ≠ k) : mapGet (mapSet m k v) k' = mapGet m k' := by
  induction m with
  | nil => simp [mapSet, mapGet, Ne.symm h]
  | cons p rest ih =>
    by_cases hp : p.1 = k
    · subst hp
      simp [mapSet, mapGet, Ne.symm h]
    · simp only [mapSet, if_neg hp, mapGet]
      by_cases hk : p.1 = k'
      · rw [if_pos hk, if_pos hk]
      · rw [if_neg hk, if_neg hk]
        exact ih

theorem mapGet_mapsCopy_of_src_none (dst src : StringMap) (k : String)
    (h : mapGet src k = none) :
    mapGet (mapsCopy dst src) k = mapGet dst k := by
  induction src generalizing dst with
  | nil => rfl
  | cons p rest ih =>
    rw [mapGet] at h
    by_cases hp : p.1 = k
    · simp [hp] at h
    · rw [if_neg hp] at h
      have hstep : mapsCopy dst (p :: rest) =
          mapsCopy (mapSet dst p.1 p.2) rest := rfl
      rw [hstep, ih _ h, mapGet_mapSet_ne _ _ (Ne.symm hp)]

theorem mapGet_mapsCopy_none (dst src : StringMap) (k : String)
    (h1 : mapGet dst k = none) (h2 : mapGet src k = none) :
    mapGet (mapsCopy dst src) k = none := by
  rw [mapGet_mapsCopy_of_src_none dst src k h2]; exact h1

/-! ### Properties of the retry loop -/

theorem retryOnErrorLoop_succ_none {ε : Type} (retriable : ε → Bool)
    (fn : Nat → Option ε) (n attempt : Nat) (lastErr : Option ε)
    (h : fn attempt = none) :
    retryOnErrorLoop retriable fn (n + 1) attempt lastErr =
      (attempt + 1, none) := by
  rw [retryOnErrorLoop, h]

theorem retryOnErrorLoop_succ_some {ε : Type} (retriable : ε → Bool)
    (fn : Nat → Option ε) (n attempt : Nat) (lastErr : Option ε) (e : ε)
    (h : fn attempt = some e) :
    retryOnErrorLoop retriable fn (n + 1) attempt lastErr =
      if retriable e = true then
        retryOnErrorLoop retriable fn n (attempt + 1) (some e)
      else (attempt + 1, some e) := by
  rw [retryOnErrorLoop, h]

theorem retryOnErrorLoop_fst_le {ε : Type} (retriable : ε → Bool)
    (fn : Nat → Option ε) (steps : Nat) :
    ∀ attempt lastErr,
      (retryOnErrorLoop retriable fn steps attempt lastErr).1 ≤
        attempt + steps := by
  induction steps with
  | zero => intro attempt lastErr; simp [retryOnErrorLoop]
  | succ n ih =>
    intro attempt lastErr
    cases hfn : fn attempt with
    | none =>
      rw [retryOnErrorLoop_succ_none retriable fn n attempt lastErr hfn]
      show attempt + 1 ≤ attempt + (n + 1)
      omega
    | some e =>
      rw [retryOnErrorLoop_succ_some retriable fn n attempt lastErr e hfn]
      by_cases hr : retriable e = true
      · rw [if_pos hr]
        have := ih (attempt + 1) (some e)
        omega
      · rw [if_neg hr]
        show attempt + 1 ≤ attempt + (n + 1)
        omega

theorem retryOnErrorLoop_all_retryable {ε : Type} (retriable : ε → Bool)
    (fn : Nat → Option ε) (steps : Nat) :
    ∀ attempt lastErr,
      (∀ i, attempt ≤ i → i < attempt + steps →
        ∃ e, fn i = some e ∧ retriable e = true) →
      (retryOnErrorLoop retriable fn steps attempt lastErr).1 =
          attempt + steps ∧
        (steps = 0 →
          (retryOnErrorLoop retriable fn steps attempt lastErr).2 = lastErr) ∧
        (0 < steps →
          (retryOnErrorLoop retriable fn steps attempt lastErr).2.isSome) := by
  induction steps with
  | zero =>
    intro attempt lastErr _
    exact ⟨by simp [retryOnErrorLoop], fun _ => rfl,
      fun h0 => absurd h0 (by omega)⟩
  | succ n ih =>
    intro attempt lastErr hall
    obtain ⟨e, hfn, hr⟩ := hall attempt (le_refl _) (by omega)
    have ihn := ih (attempt + 1) (some e)
      (fun i h1 h2 => hall i (by omega) (by omega))
    rw [retryOnErrorLoop_succ_some retriable fn n attempt lastErr e hfn,
      if_pos hr]
    refine ⟨by rw [ihn.1]; omega,
      fun hn0 => absurd hn0 (Nat.succ_ne_zero n), fun _ => ?_⟩
    rcases Nat.eq_zero_or_pos n with hn | hn
    · rw [ihn.2.1 hn]; simp
    · exact ihn.2.2 hn

theorem retryOnErrorLoop_mid {ε : Type} (retriable : ε → Bool)
    (fn : Nat → Option ε) (steps : Nat) :
    ∀ attempt lastErr i, attempt ≤ i →
      i + 1 < (retryOnErrorLoop retriable fn steps attempt lastErr).1 →
      ∃ e, fn i = some e ∧ retriable e = true := by
  induction steps with
  | zero =>
    intro attempt lastErr i h1 h2
    simp [retryOnErrorLoop] at h2
    omega
  | succ n ih =>
    intro attempt lastErr i h1 h2
    cases hfn : fn attempt with
    | none =>
      rw [retryOnErrorLoop_succ_none retriable fn n attempt lastErr hfn] at h2
      have h3 : i + 1 < attempt + 1 := h2
      omega
    | some e =>
      rw [retryOnErrorLoop_succ_some retriable fn n attempt lastErr e hfn] at h2
      by_cases hr : retriable e = true
      · rw [if_pos hr] at h2
        by_cases hi : i = attempt
        · exact ⟨e, hi ▸ hfn, hr⟩
        · exact ih (attempt + 1) (some e) i (by omega) h2
      · rw [if_neg hr] at h2
        have h3 : i + 1 < attempt + 1 := h2
        omega

/-! ### Properties of `executeAllHttpRequests` -/

theorem executeAllHttpRequestsLoop_cons_some (shortName : String) (d : Nat)
    (r : HttpRequestWithItemName) (rest : List HttpRequestWithItemName)
    (succ : List String) (errs : StringMap) (e : retryableError)
    (h : (executeSingleHttpRequestWithRetry shortName d r).2 = some e) :
    executeAllHttpRequestsLoop shortName d (r :: rest) (succ, errs) =
      executeAllHttpRequestsLoop shortName d rest
        (succ, mapSet errs r.ItemName e.err) := by
  rw [executeAllHttpRequestsLoop, h]

theorem executeAllHttpRequestsLoop_cons_none (shortName : String) (d : Nat)
    (r : HttpRequestWithItemName) (rest : List HttpRequestWithItemName)
    (succ : List String) (errs : StringMap)
    (h : (executeSingleHttpRequestWithRetry shortName d r).2 = none) :
    executeAllHttpRequestsLoop shortName d (r :: rest) (succ, errs) =
      executeAllHttpRequestsLoop shortName d rest
        (succ ++ [r.ItemName], errs) := by
  rw [executeAllHttpRequestsLoop, h]

theorem executeAllHttpRequestsLoop_errs_absent (shortName : String) (d : Nat) :
    ∀ (reqs : List HttpRequestWithItemName) (succ : List String)
      (errs : StringMap) (k : String),
      (∀ req ∈ reqs, req.ItemName ≠ k) →
      mapGet (executeAllHttpRequestsLoop shortName d reqs (succ, errs)).2 k =
        mapGet errs k := by
  intro reqs
  induction reqs with
  | nil => intro succ errs k _; rfl
  | cons r rest ih =>
    intro succ errs k habs
    have hr : r.ItemName ≠ k := habs r (List.mem_cons_self r rest)
    have hrest : ∀ req ∈ rest, req.ItemName ≠ k := fun req hreq =>
      habs req (List.mem_cons_of_mem r hreq)
    cases hres : (executeSingleHttpRequestWithRetry shortName d r).2 with
    | some e =>
      rw [executeAllHttpRequestsLoop_cons_some shortName d r rest succ errs e
        hres, ih _ _ _ hrest, mapGet_mapSet_ne errs e.err (Ne.symm hr)]
    | none =>
      rw [executeAllHttpRequestsLoop_cons_none shortName d r rest succ errs
        hres, ih _ _ _ hrest]

theorem executeAllHttpRequestsLoop_errs_fail (shortName : String) (d : Nat) :
    ∀ (reqs : List HttpRequestWithItemName) (succ : List String)
      (errs : StringMap) (k : String) (req : HttpRequestWithItemName)
      (e : retryableError),
      (reqs.map (fun r => r.ItemName)).Nodup →
      req ∈ reqs → req.ItemName = k →
      (executeSingleHttpRequestWithRetry shortName d req).2 = some e →
      mapGet (executeAllHttpRequestsLoop shortName d reqs (succ, errs)).2 k =
        some e.err := by
  intro reqs
  induction reqs with
  | nil => intro _ _ _ _ _ _ hmem _ _; exact absurd hmem (List.not_mem_nil _)
  | cons r rest ih =>
    intro succ errs k req e hnodup hmem hname hfail
    rw [List.map_cons, List.nodup_cons] at hnodup
    obtain ⟨hnotin, hnodup2⟩ := hnodup
    rcases List.mem_cons.mp hmem with rfl | hmem2
    · rw [executeAllHttpRequestsLoop_cons_some shortName d req rest succ errs
        e hfail]
      have habs : ∀ q ∈ rest, q.ItemName ≠ k := by
        intro q hq hqk
        have hmm : q.ItemName ∈ rest.map (fun r => r.ItemName) :=
          List.mem_map_of_mem _ hq
        rw [hqk, ← hname] at hmm
        exact hnotin hmm
      rw [executeAllHttpRequestsLoop_errs_absent shortName d rest _ _ _ habs,
        hname, mapGet_mapSet_self]
    · cases hres : (executeSingleHttpRequestWithRetry shortName d r).2 with
      | some e2 =>
        rw [executeAllHttpRequestsLoop_cons_some shortName d r rest succ errs
          e2 hres]
        exact ih _ _ _ _ _ hnodup2 hmem2 hname hfail
      | none =>
        rw [executeAllHttpRequestsLoop_cons_none shortName d r rest succ errs
          hres]
        exact ih _ _ _ _ _ hnodup2 hmem2 hname hfail

theorem executeAllHttpRequestsLoop_errs_success (shortName : String)
    (d : Nat) :
    ∀ (reqs : List HttpRequestWithItemName) (succ : List String)
      (errs : StringMap) (k : String) (req : HttpRequestWithItemName),
      (reqs.map (fun r => r.ItemName)).Nodup →
      req ∈ reqs → req.ItemName = k →
      (executeSingleHttpRequestWithRetry shortName d req).2 = none →
      mapGet (executeAllHttpRequestsLoop shortName d reqs (succ, errs)).2 k =
        mapGet errs k := by
  intro reqs
  induction reqs with
  | nil => intro _ _ _ _ _ hmem _ _; exact absurd hmem (List.not_mem_nil _)
  | cons r rest ih =>
    intro succ errs k req hnodup hmem hname hok
    rw [List.map_cons, List.nodup_cons] at hnodup
    obtain ⟨hnotin, hnodup2⟩ := hnodup
    rcases List.mem_cons.mp hmem with rfl | hmem2
    · rw [executeAllHttpRequestsLoop_cons_none shortName d req rest succ errs
        hok]
      have habs : ∀ q ∈ rest, q.ItemName ≠ k := by
        intro q hq hqk
        have hmm : q.ItemName ∈ rest.map (fun r => r.ItemName) :=
          List.mem_map_of_mem _ hq
        rw [hqk, ← hname] at hmm
        exact hnotin hmm
      rw [executeAllHttpRequestsLoop_errs_absent shortName d rest _ _ _ habs]
    · cases hres : (executeSingleHttpRequestWithRetry shortName d r).2 with
      | some e2 =>
        rw [executeAllHttpRequestsLoop_cons_some shortName d r rest succ errs
          e2 hres]
        have hrk : r.ItemName ≠ k := by
          intro hh
          have hmm : req.ItemName ∈ rest.map (fun r => r.ItemName) :=
            List.mem_map_of_mem _ hmem2
          rw [hname, ← hh] at hmm
          exact hnotin hmm
        rw [ih _ _ _ _ hnodup2 hmem2 hname hok]
        exact mapGet_mapSet_ne errs e2.err (Ne.symm hrk)
      | none =>
        rw [executeAllHttpRequestsLoop_cons_none shortName d r rest succ errs
          hres]
        exact ih _ _ _ _ hnodup2 hmem2 hname hok

theorem executeAllHttpRequestsLoop_mem_fst (shortName : String) (d : Nat) :
    ∀ (reqs : List HttpRequestWithItemName) (succ : List String)
      (errs : StringMap) (k : String),
      (k ∈ (executeAllHttpRequestsLoop shortName d reqs (succ, errs)).1 ↔
        k ∈ succ ∨ ∃ req, req ∈ reqs ∧ req.ItemName = k ∧
          (executeSingleHttpRequestWithRetry shortName d req).2 = none) := by
  intro reqs
  induction reqs with
  | nil =>
    intro succ errs k
    simp [executeAllHttpRequestsLoop]
  | cons r rest ih =>
    intro succ errs k
    cases hres : (executeSingleHttpRequestWithRetry shortName d r).2 with
    | some e =>
      rw [executeAllHttpRequestsLoop_cons_some shortName d r rest succ errs e
        hres, ih]
      constructor
      · rintro (h | ⟨req, hreq, hname, hok⟩)
        · exact Or.inl h
        · exact Or.inr ⟨req, List.mem_cons_of_mem r hreq, hname, hok⟩
      · rintro (h | ⟨req, hreq, hname, hok⟩)
        · exact Or.inl h
        · rcases List.mem_cons.mp hreq with rfl | hreq2
          · rw [hres] at hok; cases hok
          · exact Or.inr ⟨req, hreq2, hname, hok⟩
    | none =>
      rw [executeAllHttpRequestsLoop_cons_none shortName d r rest succ errs
        hres, ih]
      constructor
      · rintro (h | ⟨req, hreq, hname, hok⟩)
        · rcases List.mem_append.mp h with h2 | h2
          · exact Or.inl h2
          · have hk : k = r.ItemName := by simpa using h2
            exact Or.inr ⟨r, List.mem_cons_self r rest, hk.symm, hres⟩
        · exact Or.inr ⟨req, List.mem_cons_of_mem r hreq, hname, hok⟩
      · rintro (h | ⟨req, hreq, hname, hok⟩)
        · exact Or.inl (List.mem_append.mpr (Or.inl h))
        · rcases List.mem_cons.mp hreq with rfl | hreq2
          · exact Or.inl (List.mem_append.mpr (Or.inr (by simp [hname])))
          · exact Or.inr ⟨req, hreq2, hname, hok⟩

/-! ### Claim theorems -/

/-- C1: for every synchronization attempt, the overall instance result
computed by `writeSynchronizationResult` is `Successful` exactly when the
successfully-synchronized list is non-empty and both the validation-issue
map and the synchronization-error map are empty; `PartiallySuccessful`
exactly when the list is non-empty and at least one of those maps is
non-empty; and `Failed` in every other case — precisely when the list is
empty, which includes the case of zero attempted items with errors. -/
theorem writeSynchronizationResult_classification
    (writer : StatusWriterEnv) (monitoringResource : MonitoringResource)
    (thirdPartyResource : ThirdPartyResource) (itemsTotal : Nat)
    (succ : Option (List String)) (issues : IssuesMap) (errs : StringMap) :
    ((writeSynchronizationResult writer monitoringResource thirdPartyResource
        itemsTotal succ issues errs).result = .Successful ↔
      0 < lenOpt succ ∧ issues.length = 0 ∧ errs.length = 0) ∧
    ((writeSynchronizationResult writer monitoringResource thirdPartyResource
        itemsTotal succ issues errs).result = .PartiallySuccessful ↔
      0 < lenOpt succ ∧ (issues.length ≠ 0 ∨ errs.length ≠ 0)) ∧
    ((writeSynchronizationResult writer monitoringResource thirdPartyResource
        itemsTotal succ issues errs).result = .Failed ↔
      lenOpt succ = 0) := by
  simp only [writeSynchronizationResult]
  split_ifs with h1 h2
  · obtain ⟨ha, hb, hc⟩ := h1
    refine ⟨iff_of_true rfl ⟨ha, hb, hc⟩,
      iff_of_false (by simp) ?_, iff_of_false (by simp) (by omega)⟩
    rintro ⟨_, h | h⟩
    · exact h hb
    · exact h hc
  · have hbc : issues.length ≠ 0 ∨ errs.length ≠ 0 := by
      by_contra hcon
      push_neg at hcon
      exact h1 ⟨h2, hcon.1, hcon.2⟩
    exact ⟨iff_of_false (by simp) (fun hx => h1 ⟨hx.1, hx.2.1, hx.2.2⟩),
      iff_of_true rfl ⟨h2, hbc⟩,
      iff_of_false (by simp) (by omega)⟩
  · have hz : lenOpt succ = 0 := by omega
    exact ⟨iff_of_false (by simp) (fun hx => h2 hx.1),
      iff_of_false (by simp) (fun hx => h2 hx.1),
      iff_of_true rfl hz⟩

/-- C2 (failing input): a synchronization attempt in which the per-kind
mapping returns zero HTTP requests, no validation issues and no
synchronization errors. The source logs the "did not contain any ...,
skipping." line and executes no HTTP request, but it does NOT return:
`writeSynchronizationResult` is still invoked and writes a `Failed`
status (zero successes, zero issues, zero errors) for the instance. -/
theorem synchronizeViaApi_nothing_to_do_still_writes_status :
    synchronizeViaApi
      { lookup := .found { ns := "test-namespace", name := "monitoring" }
        isSynchronizationEnabled := fun _ => true
        apiConfig := some { Endpoint := "https://api.dash0.com", Dataset := "default" }
        authToken := "token" }
      { attemptOutcome := fun _ => .ok }
      "dashboard" 5000
      { ns := "test-namespace", name := "dashboard-1" }
      (fun _ _ =>
        { itemsTotal := 0, httpRequests := [], validationIssues := [],
          synchronizationErrors := [] })
      .upsert =
    { skippedLogEmitted := true
      executedRequests := []
      statusWrite := some
        { monitoringResource := { ns := "test-namespace", name := "monitoring" }
          qualifiedName := "test-namespace/dashboard-1"
          itemsTotal := 0
          succesfullySynchronized := none
          validationIssuesPerItem := []
          synchronizationErrorsPerItem := []
          write :=
            { result := .Failed, attempts := 1, persisted := true,
              finalFailureLogged := false } } } := by
  rfl

/-- C4: `validatePreconditions` runs its checks in order — monitoring
resource lookup, synchronization enabled, valid ApiConfig, non-empty auth
token — short-circuits on the first failing check (the result does not
depend on the inputs of the later checks), and on any failure returns the
"do not synchronize" zero value; it is a total function that never returns
an error. -/
theorem validatePreconditions_short_circuit (env : PreconditionEnv)
    (tpr : ThirdPartyResource) :
    ((∀ m, env.lookup ≠ .found m) →
      ∀ (enabled : MonitoringResource → Bool) (ac : Option ApiConfig)
        (tok : String),
        validatePreconditions
          { lookup := env.lookup, isSynchronizationEnabled := enabled,
            apiConfig := ac, authToken := tok } tpr =
          noSynchronizationResult) ∧
    (∀ m, env.lookup = .found m →
      env.isSynchronizationEnabled m = false →
      ∀ (ac : Option ApiConfig) (tok : String),
        validatePreconditions { env with apiConfig := ac, authToken := tok }
          tpr = noSynchronizationResult) ∧
    (∀ m, env.lookup = .found m →
      env.isSynchronizationEnabled m = true →
      isValidApiConfig env.apiConfig = false →
      ∀ tok : String,
        validatePreconditions { env with authToken := tok } tpr =
          noSynchronizationResult) ∧
    (∀ m, env.lookup = .found m →
      env.isSynchronizationEnabled m = true →
      isValidApiConfig env.apiConfig = true →
      env.authToken = "" →
      validatePreconditions env tpr = noSynchronizationResult) ∧
    ((validatePreconditions env tpr).synchronizeResource = false →
      validatePreconditions env tpr = noSynchronizationResult) := by
  refine ⟨?_, ?_, ?_, ?_, ?_⟩
  · intro hnf enabled ac tok
    cases henv : env.lookup with
    | lookupError msg => simp [validatePreconditions, henv]
    | noResource => simp [validatePreconditions, henv]
    | found m => exact absurd henv (hnf m)
  · intro m hm hdis ac tok
    simp [validatePreconditions, hm, hdis]
  · intro m hm hen hac tok
    cases hcfg : env.apiConfig with
    | none => simp [validatePreconditions, hm, hen, hcfg]
    | some ac =>
      rw [hcfg] at hac
      simp [isValidApiConfig] at hac
      simp [validatePreconditions, hm, hen, hcfg, hac]
  · intro m hm hen hval htok
    cases hcfg : env.apiConfig with
    | none => rw [hcfg] at hval; simp [isValidApiConfig] at hval
    | some ac =>
      rw [hcfg] at hval
      simp [isValidApiConfig] at hval
      simp [validatePreconditions, hm, hen, hcfg, hval, htok]
  · intro hfalse
    cases henv : env.lookup with
    | lookupError msg => simp [validatePreconditions, henv]
    | noResource => simp [validatePreconditions, henv]
    | found m =>
      by_cases hen : env.isSynchronizationEnabled m = true
      · cases hcfg : env.apiConfig with
        | none => simp [validatePreconditions, henv, hen, hcfg]
        | some ac =>
          by_cases hep : ac.Endpoint = ""
          · simp [validatePreconditions, henv, hen, hcfg, hep]
          · by_cases htok : env.authToken = ""
            · simp [validatePreconditions, henv, hen, hcfg, hep, htok]
            · exfalso
              rw [validatePreconditions, henv] at hfalse
              simp [hen, hcfg, hep, htok] at hfalse
      · simp [validatePreconditions, henv, hen]

/-- C4 witness: at a concrete environment whose monitoring-resource lookup
comes back empty, `validatePreconditions` returns the zero-valued
"do not synchronize" result for every configuration of the later checks. -/
theorem validatePreconditions_short_circuit_witness :
    validatePreconditions
      { lookup := .noResource, isSynchronizationEnabled := fun _ => true,
        apiConfig := some { Endpoint := "https://api.dash0.com", Dataset := "" },
        authToken := "token" }
      { ns := "test-namespace", name := "dashboard-1" } =
      noSynchronizationResult :=
  (validatePreconditions_short_circuit
      { lookup := .noResource, isSynchronizationEnabled := fun _ => true,
        apiConfig := some { Endpoint := "https://api.dash0.com", Dataset := "" },
        authToken := "token" }
      { ns := "test-namespace", name := "dashboard-1" }).1
    (fun _ h => MonitoringResourceLookupResult.noConfusion h)
    (fun _ => true)
    (some { Endpoint := "https://api.dash0.com", Dataset := "" })
    "token"

/-- C6: calling `stopWatchingThirdPartyResources` when no stop function is
set, or `maybeStartWatchingThirdPartyResources` when already watching, is a
no-op: the state is returned unchanged (no controller created or cancelled,
no informer removed, the stop-function handle untouched) and no error is
produced. -/
theorem lifecycle_stop_start_idempotent (env : StartAttemptEnv)
    (isStartup : Bool) (s1 s2 : LifecycleState) :
    (IsWatching s1 = true →
      maybeStartWatchingThirdPartyResources env isStartup s1 = s1) ∧
    (s2.controllerStopFunction = none →
      stopWatchingThirdPartyResources s2 = s2) := by
  constructor
  · intro hw
    unfold maybeStartWatchingThirdPartyResources
    rw [if_pos hw]
  · intro hn
    unfold stopWatchingThirdPartyResources
    rw [hn]

/-- C6 witness: a concrete watching state is returned unchanged by
`maybeStartWatchingThirdPartyResources`, and a concrete non-watching state
is returned unchanged by `stopWatchingThirdPartyResources`. -/
theorem lifecycle_stop_start_idempotent_witness :
    maybeStartWatchingThirdPartyResources
        { crdExists := true,
          apiConfig := some { Endpoint := "https://api.dash0.com", Dataset := "default" },
          controllerCreationFails := false, watchRegistrationFails := false }
        false
        { controllerStopFunction := some 0, informerInstalled := true,
          controllersStarted := 1, cancelledControllers := [] } =
      { controllerStopFunction := some 0, informerInstalled := true,
        controllersStarted := 1, cancelledControllers := [] } ∧
    stopWatchingThirdPartyResources
        { controllerStopFunction := none, informerInstalled := false,
          controllersStarted := 1, cancelledControllers := [0] } =
      { controllerStopFunction := none, informerInstalled := false,
        controllersStarted := 1, cancelledControllers := [0] } :=
  ⟨(lifecycle_stop_start_idempotent
      { crdExists := true,
        apiConfig := some { Endpoint := "https://api.dash0.com", Dataset := "default" },
        controllerCreationFails := false, watchRegistrationFails := false }
      false
      { controllerStopFunction := some 0, informerInstalled := true,
        controllersStarted := 1, cancelledControllers := [] }
      { controllerStopFunction := none, informerInstalled := false,
        controllersStarted := 1, cancelledControllers := [0] }).1 rfl,
    (lifecycle_stop_start_idempotent
      { crdExists := true,
        apiConfig := some { Endpoint := "https://api.dash0.com", Dataset := "default" },
        controllerCreationFails := false, watchRegistrationFails := false }
      false
      { controllerStopFunction := some 0, informerInstalled := true,
        controllersStarted := 1, cancelledControllers := [] }
      { controllerStopFunction := none, informerInstalled := false,
        controllersStarted := 1, cancelledControllers := [0] }).2 rfl⟩

/-- C9: when all four precondition checks pass, the resulting dataset is
`util.DatasetDefault` when the loaded ApiConfig's `Dataset` is the empty
string and the ApiConfig's `Dataset` unchanged otherwise. -/
theorem validatePreconditions_dataset_default (env : PreconditionEnv)
    (tpr : ThirdPartyResource) (m : MonitoringResource)
    (apiConfig : ApiConfig)
    (h1 : env.lookup = .found m)
    (h2 : env.isSynchronizationEnabled m = true)
    (h3 : env.apiConfig = some apiConfig)
    (h4 : apiConfig.Endpoint ≠ "")
    (h5 : env.authToken ≠ "") :
    (validatePreconditions env tpr).dataset =
      if apiConfig.Dataset = "" then DatasetDefault
      else apiConfig.Dataset := by
  simp [validatePreconditions, h1, h2, h3, h4, h5]

/-- C9 witness: with a valid environment whose ApiConfig has an empty
dataset, the resolved dataset is the default constant. -/
theorem validatePreconditions_dataset_default_witness :
    (validatePreconditions
        { lookup := .found { ns := "test-namespace", name := "monitoring" },
          isSynchronizationEnabled := fun _ => true,
          apiConfig := some { Endpoint := "https://api.dash0.com", Dataset := "" },
          authToken := "token" }
        { ns := "test-namespace", name := "dashboard-1" }).dataset =
      if ("" : String) = "" then DatasetDefault else "" :=
  validatePreconditions_dataset_default
    { lookup := .found { ns := "test-namespace", name := "monitoring" },
      isSynchronizationEnabled := fun _ => true,
      apiConfig := some { Endpoint := "https://api.dash0.com", Dataset := "" },
      authToken := "token" }
    { ns := "test-namespace", name := "dashboard-1" }
    { ns := "test-namespace", name := "monitoring" }
    { Endpoint := "https://api.dash0.com", Dataset := "" }
    rfl rfl rfl (by decide) (by decide)

/-- C3: each prepared HTTP request is executed with at most 3 attempts
total; an attempt is followed by a further attempt only when its error is
classified retryable; a transport failure or an HTTP 5xx response yields a
retryable error; a 2xx response is a success (nil error); an HTTP 4xx
response yields a non-retryable error that is surfaced as the per-item
error after exactly 1 attempt; and when every attempt fails retryably (for
example HTTP 503) the request is retried up to 3 attempts total before the
error surfaces. -/
theorem executeSingleHttpRequestWithRetry_policy (shortName : String)
    (d : Nat) (req : HttpRequestWithItemName) :
    (executeSingleHttpRequestWithRetry shortName d req).1 ≤ 3 ∧
    (∀ i, i + 1 < (executeSingleHttpRequestWithRetry shortName d req).1 →
      ∃ e, executeSingleHttpRequest shortName req i = some e ∧
        e.retryable = true) ∧
    (∀ i msg, req.attemptOutcome i = .transportError msg →
      ∃ e, executeSingleHttpRequest shortName req i = some e ∧
        e.retryable = true) ∧
    (∀ i statusCode body, req.attemptOutcome i = .response statusCode body →
      500 ≤ statusCode → statusCode < 600 →
      ∃ e, executeSingleHttpRequest shortName req i = some e ∧
        e.retryable = true) ∧
    (∀ i statusCode body, req.attemptOutcome i = .response statusCode body →
      200 ≤ statusCode → statusCode < 300 →
      executeSingleHttpRequest shortName req i = none) ∧
    (∀ statusCode body, req.attemptOutcome 0 = .response statusCode body →
      400 ≤ statusCode → statusCode < 500 →
      executeSingleHttpRequestWithRetry shortName d req =
        (1, some
          { err := convertNon2xxStatusCodeToError shortName req statusCode body,
            retryable := false })) ∧
    ((∀ i, i < 3 → ∃ e, executeSingleHttpRequest shortName req i = some e ∧
        e.retryable = true) →
      (executeSingleHttpRequestWithRetry shortName d req).1 = 3 ∧
      (executeSingleHttpRequestWithRetry shortName d req).2.isSome) := by
  refine ⟨?_, ?_, ?_, ?_, ?_, ?_, ?_⟩
  · exact retryOnErrorLoop_fst_le (fun e => e.retryable)
      (executeSingleHttpRequest shortName req) 3 0 none
  · intro i hi
    have hi2 : i + 1 < (retryOnErrorLoop (fun e : retryableError =>
        e.retryable) (executeSingleHttpRequest shortName req) 3 0 none).1 := hi
    exact retryOnErrorLoop_mid (fun e => e.retryable)
      (executeSingleHttpRequest shortName req) 3 0 none i (Nat.zero_le i) hi2
  · intro i msg hout
    refine ⟨{ err := msg, retryable := true }, ?_, rfl⟩
    simp [executeSingleHttpRequest, hout]
  · intro i statusCode body hout h5a h5b
    refine ⟨{ err := (convertNon2xxStatusCodeToError shortName req
        statusCode body), retryable := true }, ?_, rfl⟩
    simp only [executeSingleHttpRequest, hout]
    rw [if_pos (by omega : statusCode < 200 ∨ 300 ≤ statusCode),
      if_neg (by omega : ¬(400 ≤ statusCode ∧ statusCode < 500))]
  · intro i statusCode body hout h2a h2b
    simp only [executeSingleHttpRequest, hout]
    rw [if_neg (by omega : ¬(statusCode < 200 ∨ 300 ≤ statusCode))]
  · intro statusCode body hout h4a h4b
    have hfn0 : executeSingleHttpRequest shortName req 0 = some
        { err := convertNon2xxStatusCodeToError shortName req statusCode body,
          retryable := false } := by
      simp only [executeSingleHttpRequest, hout]
      rw [if_pos (by omega : statusCode < 200 ∨ 300 ≤ statusCode),
        if_pos (by omega : 400 ≤ statusCode ∧ statusCode < 500)]
    have hstep := retryOnErrorLoop_succ_some
      (fun e : retryableError => e.retryable)
      (executeSingleHttpRequest shortName req) 2 0 none _ hfn0
    rw [if_neg (by simp)] at hstep
    show retryOnErrorLoop (fun e : retryableError => e.retryable)
      (executeSingleHttpRequest shortName req) 3 0 none = _
    exact hstep
  · intro hall
    have h3 := retryOnErrorLoop_all_retryable (fun e => e.retryable)
      (executeSingleHttpRequest shortName req) 3 0 none
      (fun i _ h2 => hall i (by omega))
    constructor
    · show (retryOnErrorLoop (fun e : retryableError => e.retryable)
        (executeSingleHttpRequest shortName req) 3 0 none).1 = 3
      rw [h3.1]
    · exact h3.2.2 (by omega)

/-- C3 witness: a request whose first attempt gets an HTTP 404 response is
surfaced as a non-retryable per-item error after exactly 1 attempt. -/
theorem executeSingleHttpRequestWithRetry_policy_witness :
    executeSingleHttpRequestWithRetry "dashboard" 5000
      { ItemName := "a", url := "u",
        attemptOutcome := fun _ => .response 404 "not found" } =
      (1, some
        { err := convertNon2xxStatusCodeToError "dashboard"
            { ItemName := "a", url := "u",
              attemptOutcome := fun _ => .response 404 "not found" }
            404 "not found",
          retryable := false }) :=
  (executeSingleHttpRequestWithRetry_policy "dashboard" 5000
    { ItemName := "a", url := "u",
      attemptOutcome := fun _ => .response 404 "not found" }).2.2.2.2.2.1
    404 "not found" rfl (by decide) (by decide)

/-- C8: when writing the synchronization outcome fails, the whole re-fetch,
merge and write sequence is retried with the backoff
`{Steps: 3, Duration: 1s, Factor: 1.3}` and an always-retriable predicate:
at most 3 attempts are performed; when the API server fails every attempt,
exactly 3 attempts are performed, the update is discarded (not persisted)
and the final failure is logged, while the function still returns normally
(its outcome record is total — no error is propagated and no effect other
than monitoring-resource reads and status writes is produced, so the
already-performed external synchronization is untouched); when the first
attempt succeeds there is exactly 1 attempt. -/
theorem writeSynchronizationResult_retry_policy (writer : StatusWriterEnv)
    (monitoringResource : MonitoringResource)
    (thirdPartyResource : ThirdPartyResource) (itemsTotal : Nat)
    (succ : Option (List String)) (issues : IssuesMap) (errs : StringMap) :
    (writeSynchronizationResult writer monitoringResource thirdPartyResource
        itemsTotal succ issues errs).attempts ≤ 3 ∧
    statusWriteBackoff = { Steps := 3, DurationMs := 1000, FactorTimes10 := 13 } ∧
    ((∀ i, writer.attemptOutcome i ≠ .ok) →
      (writeSynchronizationResult writer monitoringResource thirdPartyResource
          itemsTotal succ issues errs).attempts = 3 ∧
      (writeSynchronizationResult writer monitoringResource thirdPartyResource
          itemsTotal succ issues errs).persisted = false ∧
      (writeSynchronizationResult writer monitoringResource thirdPartyResource
          itemsTotal succ issues errs).finalFailureLogged = true) ∧
    (writer.attemptOutcome 0 = .ok →
      (writeSynchronizationResult writer monitoringResource thirdPartyResource
          itemsTotal succ issues errs).attempts = 1 ∧
      (writeSynchronizationResult writer monitoringResource thirdPartyResource
          itemsTotal succ issues errs).persisted = true ∧
      (writeSynchronizationResult writer monitoringResource thirdPartyResource
          itemsTotal succ issues errs).finalFailureLogged = false) := by
  refine ⟨?_, rfl, ?_, ?_⟩
  · exact retryOnErrorLoop_fst_le (fun _ => true) _ 3 0 none
  · intro hne
    have hall : ∀ i, 0 ≤ i → i < 0 + 3 →
        ∃ e, (fun attempt =>
          match writer.attemptOutcome attempt with
          | .getFails msg => some msg
          | .updateFails msg => some msg
          | .ok => none) i = some e ∧ (fun _ : String => true) e = true := by
      intro i _ _
      cases ho : writer.attemptOutcome i with
      | getFails msg => exact ⟨msg, by simp [ho], rfl⟩
      | updateFails msg => exact ⟨msg, by simp [ho], rfl⟩
      | ok => exact absurd ho (hne i)
    have h3 := retryOnErrorLoop_all_retryable (fun _ => true) _ 3 0 none hall
    obtain ⟨v, hv⟩ := Option.isSome_iff_exists.mp (h3.2.2 (by omega))
    refine ⟨?_, ?_, ?_⟩
    · show (retryOnErrorLoop (fun _ : String => true)
        (fun attempt =>
          match writer.attemptOutcome attempt with
          | .getFails msg => some msg
          | .updateFails msg => some msg
          | .ok => none) 3 0 none).1 = 3
      rw [h3.1]
    · show (retryOnErrorLoop (fun _ : String => true)
        (fun attempt =>
          match writer.attemptOutcome attempt with
          | .getFails msg => some msg
          | .updateFails msg => some msg
          | .ok => none) 3 0 none).2.isNone = false
      rw [hv]
      rfl
    · show (retryOnErrorLoop (fun _ : String => true)
        (fun attempt =>
          match writer.attemptOutcome attempt with
          | .getFails msg => some msg
          | .updateFails msg => some msg
          | .ok => none) 3 0 none).2.isSome = true
      rw [hv]
      rfl
  · intro h0
    have hfn0 : (fun attempt =>
        match writer.attemptOutcome attempt with
        | .getFails msg => some msg
        | .updateFails msg => some msg
        | .ok => none) 0 = none := by simp [h0]
    have hstep : retryOnErrorLoop (fun _ : String => true)
        (fun attempt =>
          match writer.attemptOutcome attempt with
          | .getFails msg => some msg
          | .updateFails msg => some msg
          | .ok => none) 3 0 none = (1, none) :=
      retryOnErrorLoop_succ_none (fun _ => true) _ 2 0 none hfn0
    refine ⟨?_, ?_, ?_⟩
    · show (retryOnErrorLoop (fun _ : String => true)
        (fun attempt =>
          match writer.attemptOutcome attempt with
          | .getFails msg => some msg
          | .updateFails msg => some msg
          | .ok => none) 3 0 none).1 = 1
      rw [hstep]
    · show (retryOnErrorLoop (fun _ : String => true)
        (fun attempt =>
          match writer.attemptOutcome attempt with
          | .getFails msg => some msg
          | .updateFails msg => some msg
          | .ok => none) 3 0 none).2.isNone = true
      simp [hstep]
    · show (retryOnErrorLoop (fun _ : String => true)
        (fun attempt =>
          match writer.attemptOutcome attempt with
          | .getFails msg => some msg
          | .updateFails msg => some msg
          | .ok => none) 3 0 none).2.isSome = false
      simp [hstep]

/-- C8 witness: with an API server that rejects every status write, the
writer performs exactly 3 attempts, does not persist, and logs the final
failure; with a server that accepts immediately, exactly 1 attempt. -/
theorem writeSynchronizationResult_retry_policy_witness :
    ((writeSynchronizationResult { attemptOutcome := fun _ => .updateFails "conflict" }
        { ns := "test-namespace", name := "monitoring" }
        { ns := "test-namespace", name := "dashboard-1" } 1 (some ["a"]) []
        []).attempts = 3 ∧
      (writeSynchronizationResult { attemptOutcome := fun _ => .updateFails "conflict" }
        { ns := "test-namespace", name := "monitoring" }
        { ns := "test-namespace", name := "dashboard-1" } 1 (some ["a"]) []
        []).persisted = false ∧
      (writeSynchronizationResult { attemptOutcome := fun _ => .updateFails "conflict" }
        { ns := "test-namespace", name := "monitoring" }
        { ns := "test-namespace", name := "dashboard-1" } 1 (some ["a"]) []
        []).finalFailureLogged = true) :=
  (writeSynchronizationResult_retry_policy
    { attemptOutcome := fun _ => .updateFails "conflict" }
    { ns := "test-namespace", name := "monitoring" }
    { ns := "test-namespace", name := "dashboard-1" } 1 (some ["a"]) []
    []).2.2.1
    (fun _ h => StatusWriteAttemptOutcome.noConfusion h)

/-- C10: for pairwise-distinct item names, `executeAllHttpRequests`
partitions the names exactly: a request's item name is in the returned
successes list iff its execution returned nil; a failing request's item
name is a key of the error map carrying that error's message; no name is in
both; every error-map key comes from a request; and the successes slice is
nil (`none`) exactly when no item succeeded. -/
theorem executeAllHttpRequests_partition (shortName : String) (d : Nat)
    (reqs : List HttpRequestWithItemName)
    (hnodup : (reqs.map (fun r => r.ItemName)).Nodup) :
    (∀ req ∈ reqs,
      ((executeSingleHttpRequestWithRetry shortName d req).2 = none ↔
        req.ItemName ∈ (executeAllHttpRequests shortName d reqs).1.getD []) ∧
      (∀ e, (executeSingleHttpRequestWithRetry shortName d req).2 = some e →
        mapGet (executeAllHttpRequests shortName d reqs).2 req.ItemName =
          some e.err) ∧
      ((executeSingleHttpRequestWithRetry shortName d req).2 = none →
        mapGet (executeAllHttpRequests shortName d reqs).2 req.ItemName =
          none)) ∧
    (∀ k, mapGet (executeAllHttpRequests shortName d reqs).2 k ≠ none →
      ∃ req, req ∈ reqs ∧ req.ItemName = k) ∧
    (∀ k, k ∈ (executeAllHttpRequests shortName d reqs).1.getD [] →
      mapGet (executeAllHttpRequests shortName d reqs).2 k = none) ∧
    ((executeAllHttpRequests shortName d reqs).1 = none ↔
      ∀ req ∈ reqs, (executeSingleHttpRequestWithRetry shortName d req).2 ≠
        none) := by
  have hmem : ∀ k, (k ∈ (executeAllHttpRequests shortName d reqs).1.getD []
      ↔ ∃ req, req ∈ reqs ∧ req.ItemName = k ∧
        (executeSingleHttpRequestWithRetry shortName d req).2 = none) := by
    intro k
    show (k ∈ (if (executeAllHttpRequestsLoop shortName d reqs
        ([], [])).1.length = 0 then none else
        some (executeAllHttpRequestsLoop shortName d reqs ([], [])).1).getD []
      ↔ _)
    by_cases hlen :
        (executeAllHttpRequestsLoop shortName d reqs ([], [])).1.length = 0
    · rw [if_pos hlen]
      constructor
      · intro hk; exact absurd hk (List.not_mem_nil k)
      · intro hex
        have hk := (executeAllHttpRequestsLoop_mem_fst shortName d reqs []
          [] k).mpr (Or.inr hex)
        rw [List.length_eq_zero.mp hlen] at hk
        exact absurd hk (List.not_mem_nil k)
    · rw [if_neg hlen]
      show k ∈ (executeAllHttpRequestsLoop shortName d reqs ([], [])).1 ↔ _
      rw [executeAllHttpRequestsLoop_mem_fst shortName d reqs [] [] k]
      constructor
      · intro h
        exact h.resolve_left (List.not_mem_nil k)
      · exact Or.inr
  refine ⟨?_, ?_, ?_, ?_⟩
  · intro req hreq
    refine ⟨?_, ?_, ?_⟩
    · constructor
      · intro hok
        exact (hmem req.ItemName).mpr ⟨req, hreq, rfl, hok⟩
      · intro hin
        obtain ⟨req2, hreq2, hname2, hok2⟩ := (hmem req.ItemName).mp hin
        have heq : req2 = req :=
          List.inj_on_of_nodup_map hnodup hreq2 hreq hname2
        rw [← heq]
        exact hok2
    · intro e hfail
      show mapGet (executeAllHttpRequestsLoop shortName d reqs ([], [])).2
        req.ItemName = some e.err
      exact executeAllHttpRequestsLoop_errs_fail shortName d reqs [] []
        req.ItemName req e hnodup hreq rfl hfail
    · intro hok
      show mapGet (executeAllHttpRequestsLoop shortName d reqs ([], [])).2
        req.ItemName = none
      rw [executeAllHttpRequestsLoop_errs_success shortName d reqs [] []
        req.ItemName req hnodup hreq rfl hok]
      rfl
  · intro k hk
    by_contra hnone
    push_neg at hnone
    refine hk ?_
    show mapGet (executeAllHttpRequestsLoop shortName d reqs ([], [])).2 k =
      none
    rw [executeAllHttpRequestsLoop_errs_absent shortName d reqs [] [] k
      hnone]
    rfl
  · intro k hin
    obtain ⟨req, hreq, hname, hok⟩ := (hmem k).mp hin
    show mapGet (executeAllHttpRequestsLoop shortName d reqs ([], [])).2 k =
      none
    rw [executeAllHttpRequestsLoop_errs_success shortName d reqs [] [] k req
      hnodup hreq hname hok]
    rfl
  · constructor
    · intro hnone req hreq hok
      have hin : req.ItemName ∈
          (executeAllHttpRequests shortName d reqs).1.getD [] :=
        (hmem req.ItemName).mpr ⟨req, hreq, rfl, hok⟩
      rw [hnone] at hin
      exact absurd hin (List.not_mem_nil _)
    · intro hall
      have hempty : (executeAllHttpRequestsLoop shortName d reqs
          ([], [])).1 = [] := by
        by_contra hne
        obtain ⟨k, hk⟩ := List.exists_mem_of_ne_nil _ hne
        have h2 := (executeAllHttpRequestsLoop_mem_fst shortName d reqs []
          [] k).mp hk
        obtain ⟨req, hreq, _, hok⟩ := h2.resolve_left (List.not_mem_nil k)
        exact hall req hreq hok
      show (if (executeAllHttpRequestsLoop shortName d reqs
          ([], [])).1.length = 0 then none else
          some (executeAllHttpRequestsLoop shortName d reqs ([], [])).1) =
        (none : Option (List String))
      rw [if_pos (by rw [hempty]; rfl)]

/-- C10 witness: with two distinctly-named requests — "a" answered with
HTTP 200 and "b" with HTTP 404 — "a" carries no error-map entry. -/
theorem executeAllHttpRequests_partition_witness :
    mapGet
      (executeAllHttpRequests "dashboard" 5000
        [{ ItemName := "a", url := "u1",
           attemptOutcome := fun _ => .response 200 "" },
         { ItemName := "b", url := "u2",
           attemptOutcome := fun _ => .response 404 "" }]).2
      "a" = none :=
  (((executeAllHttpRequests_partition "dashboard" 5000
      [{ ItemName := "a", url := "u1",
         attemptOutcome := fun _ => .response 200 "" },
       { ItemName := "b", url := "u2",
         attemptOutcome := fun _ => .response 404 "" }]
      (by simp)).1
    { ItemName := "a", url := "u1",
      attemptOutcome := fun _ => .response 200 "" }
    (List.mem_cons_self _ _)).2.2) rfl

/-- C7: when the per-kind mapper honours its contract — an item that became
a prepared request appears in neither the mapping-stage error map nor the
validation-issue map, and no item is in both of those maps — the
validation-issue map and the final merged synchronization-error map handed
to the status writer never share an item name, and no mapping-stage error
entry is overwritten by an HTTP-stage error in the `maps.Copy` union. -/
theorem synchronizeViaApi_error_maps_disjoint (env : PreconditionEnv)
    (writer : StatusWriterEnv) (shortName : String) (d : Nat)
    (tpr : ThirdPartyResource)
    (mapper : preconditionValidationResult → apiAction →
      MapResourceToHttpRequestsResult)
    (action : apiAction)
    (hreqErrs : ∀ req ∈ (mapper (validatePreconditions env tpr)
        action).httpRequests,
      mapGet (mapper (validatePreconditions env tpr)
        action).synchronizationErrors req.ItemName = none)
    (hreqIssues : ∀ req ∈ (mapper (validatePreconditions env tpr)
        action).httpRequests,
      issuesGet (mapper (validatePreconditions env tpr)
        action).validationIssues req.ItemName = none)
    (hissuesErrs : ∀ k, issuesGet (mapper (validatePreconditions env tpr)
        action).validationIssues k ≠ none →
      mapGet (mapper (validatePreconditions env tpr)
        action).synchronizationErrors k = none) :
    ∀ w, (synchronizeViaApi env writer shortName d tpr mapper
        action).statusWrite = some w →
      (∀ k, issuesGet w.validationIssuesPerItem k ≠ none →
        mapGet w.synchronizationErrorsPerItem k = none) ∧
      (∀ k v, mapGet (mapper (validatePreconditions env tpr)
          action).synchronizationErrors k = some v →
        mapGet w.synchronizationErrorsPerItem k = some v) := by
  intro w hw
  by_cases hsync : (validatePreconditions env tpr).synchronizeResource = true
  · have hsw : (synchronizeViaApi env writer shortName d tpr mapper
        action).statusWrite = some
        { monitoringResource := (validatePreconditions env
            tpr).monitoringResource.getD { ns := "", name := "" }
          qualifiedName := tpr.ns ++ "/" ++ tpr.name
          itemsTotal := (mapper (validatePreconditions env tpr)
            action).itemsTotal
          succesfullySynchronized := (if (mapper (validatePreconditions env
              tpr) action).httpRequests.length > 0 then
              executeAllHttpRequests shortName d
                (mapper (validatePreconditions env tpr) action).httpRequests
            else (none, [])).1
          validationIssuesPerItem := (mapper (validatePreconditions env tpr)
            action).validationIssues
          synchronizationErrorsPerItem :=
            (if (if (mapper (validatePreconditions env tpr)
                action).httpRequests.length > 0 then
                executeAllHttpRequests shortName d
                  (mapper (validatePreconditions env tpr)
                    action).httpRequests
              else (none, [])).2.length > 0 then
              mapsCopy (mapper (validatePreconditions env tpr)
                action).synchronizationErrors
                (if (mapper (validatePreconditions env tpr)
                    action).httpRequests.length > 0 then
                  executeAllHttpRequests shortName d
                    (mapper (validatePreconditions env tpr)
                      action).httpRequests
                else (none, [])).2
            else (mapper (validatePreconditions env tpr)
              action).synchronizationErrors)
          write := writeSynchronizationResult writer
            ((validatePreconditions env tpr).monitoringResource.getD
              { ns := "", name := "" }) tpr
            (mapper (validatePreconditions env tpr) action).itemsTotal
            (if (mapper (validatePreconditions env tpr)
                action).httpRequests.length > 0 then
                executeAllHttpRequests shortName d
                  (mapper (validatePreconditions env tpr)
                    action).httpRequests
              else (none, [])).1
            (mapper (validatePreconditions env tpr) action).validationIssues
            (if (if (mapper (validatePreconditions env tpr)
                action).httpRequests.length > 0 then
                executeAllHttpRequests shortName d
                  (mapper (validatePreconditions env tpr)
                    action).httpRequests
              else (none, [])).2.length > 0 then
              mapsCopy (mapper (validatePreconditions env tpr)
                action).synchronizationErrors
                (if (mapper (validatePreconditions env tpr)
                    action).httpRequests.length > 0 then
                  executeAllHttpRequests shortName d
                    (mapper (validatePreconditions env tpr)
                      action).httpRequests
                else (none, [])).2
            else (mapper (validatePreconditions env tpr)
              action).synchronizationErrors) } := by
      unfold synchronizeViaApi
      rw [if_neg (by simp [hsync])]
    rw [hsw] at hw
    obtain rfl := (Option.some.inj hw).symm
    have hhttpKeys : ∀ k, mapGet (if (mapper (validatePreconditions env tpr)
        action).httpRequests.length > 0 then
        executeAllHttpRequests shortName d
          (mapper (validatePreconditions env tpr) action).httpRequests
      else (none, [])).2 k ≠ none →
        ∃ req, req ∈ (mapper (validatePreconditions env tpr)
          action).httpRequests ∧ req.ItemName = k := by
      intro k hk
      by_cases hlen : (mapper (validatePreconditions env tpr)
          action).httpRequests.length > 0
      · rw [if_pos hlen] at hk
        by_contra hnone
        push_neg at hnone
        refine hk ?_
        show mapGet (executeAllHttpRequestsLoop shortName d
          (mapper (validatePreconditions env tpr) action).httpRequests
          ([], [])).2 k = none
        rw [executeAllHttpRequestsLoop_errs_absent shortName d _ [] [] k
          hnone]
        rfl
      · rw [if_neg hlen] at hk
        exact absurd rfl hk
    constructor
    · intro k hk
      simp only at hk ⊢
      have hme : mapGet (mapper (validatePreconditions env tpr)
          action).synchronizationErrors k = none := hissuesErrs k hk
      by_cases hlen2 : (if (mapper (validatePreconditions env tpr)
          action).httpRequests.length > 0 then
          executeAllHttpRequests shortName d
            (mapper (validatePreconditions env tpr) action).httpRequests
        else (none, [])).2.length > 0
      · rw [if_pos hlen2]
        have hhttp : mapGet (if (mapper (validatePreconditions env tpr)
            action).httpRequests.length > 0 then
            executeAllHttpRequests shortName d
              (mapper (validatePreconditions env tpr) action).httpRequests
          else (none, [])).2 k = none := by
          by_contra hsome
          obtain ⟨req, hreq, hname⟩ := hhttpKeys k hsome
          rw [← hname] at hk
          exact hk (hreqIssues req hreq)
        exact mapGet_mapsCopy_none _ _ k hme hhttp
      · rw [if_neg hlen2]
        exact hme
    · intro k v hv
      simp only at hv ⊢
      by_cases hlen2 : (if (mapper (validatePreconditions env tpr)
          action).httpRequests.length > 0 then
          executeAllHttpRequests shortName d
            (mapper (validatePreconditions env tpr) action).httpRequests
        else (none, [])).2.length > 0
      · rw [if_pos hlen2]
        have hhttp : mapGet (if (mapper (validatePreconditions env tpr)
            action).httpRequests.length > 0 then
            executeAllHttpRequests shortName d
              (mapper (validatePreconditions env tpr) action).httpRequests
          else (none, [])).2 k = none := by
          by_contra hsome
          obtain ⟨req, hreq, hname⟩ := hhttpKeys k hsome
          rw [← hname] at hv
          rw [hreqErrs req hreq] at hv
          cases hv
        rw [mapGet_mapsCopy_of_src_none _ _ k hhttp]
        exact hv
      · rw [if_neg hlen2]
        exact hv
  · exfalso
    have hnone : (synchronizeViaApi env writer shortName d tpr mapper
        action).statusWrite = none := by
      unfold synchronizeViaApi
      rw [if_pos (by simp [hsync])]
    rw [hnone] at hw
    cases hw

/-- C7 witness: a mapper yielding one request "a" (answered with HTTP 200),
one validation issue "b" and one mapping-stage error "c": in the maps
handed to the status writer, the issue key "b" is absent from the final
error map and the mapping-stage entry for "c" survives the merge
unchanged. -/
theorem synchronizeViaApi_error_maps_disjoint_witness :
    mapGet [("c", "boom")] "b" = none ∧
    mapGet [("c", "boom")] "c" = some "boom" :=
  have hthm := synchronizeViaApi_error_maps_disjoint
    { lookup := .found { ns := "test-namespace", name := "monitoring" }
      isSynchronizationEnabled := fun _ => true
      apiConfig := some { Endpoint := "https://api.dash0.com", Dataset := "default" }
      authToken := "token" }
    { attemptOutcome := fun _ => .ok }
    "dashboard" 5000
    { ns := "test-namespace", name := "dashboard-1" }
    (fun _ _ =>
      { itemsTotal := 3
        httpRequests :=
          [{ ItemName := "a", url := "u1",
             attemptOutcome := fun _ => .response 200 "" }]
        validationIssues := [("b", ["bad"])]
        synchronizationErrors := [("c", "boom")] })
    .upsert
    (by
      intro req hreq
      rcases List.mem_cons.mp hreq with rfl | hreq2
      · decide
      · exact absurd hreq2 (List.not_mem_nil req))
    (by
      intro req hreq
      rcases List.mem_cons.mp hreq with rfl | hreq2
      · decide
      · exact absurd hreq2 (List.not_mem_nil req))
    (by
      intro k hk
      by_cases hb : "b" = k
      · rw [← hb]
        decide
      · exfalso
        apply hk
        show issuesGet [("b", ["bad"])] k = none
        rw [issuesGet, if_neg hb]
        rfl)
    { monitoringResource := { ns := "test-namespace", name := "monitoring" }
      qualifiedName := "test-namespace/dashboard-1"
      itemsTotal := 3
      succesfullySynchronized := some ["a"]
      validationIssuesPerItem := [("b", ["bad"])]
      synchronizationErrorsPerItem := [("c", "boom")]
      write :=
        { result := .PartiallySuccessful, attempts := 1,
          persisted := true, finalFailureLogged := false } }
    rfl
  ⟨hthm.1 "b" (by decide), hthm.2 "c" "boom" (by decide)⟩

/-- C5: in the interleaved model of concurrent
`maybeStartWatchingThirdPartyResources` calls for one kind, in every
reachable state at most one sub-controller is active: any two active
sub-controllers are the same one. (The cancellation handle is a single
shared slot — `SysState.controllerStopFunction` — so at most one handle is
non-nil by construction; the invariant proved via `Interleaving.Inv` is
that every active sub-controller owns that slot.) -/
theorem maybeStart_at_most_one_active_controller
    (s : Interleaving.SysState) (hreach : Interleaving.Reachable s)
    (c1 c2 : Nat) (h1 : Interleaving.Active s c1)
    (h2 : Interleaving.Active s c2) : c1 = c2 := by
  have hinv := Interleaving.inv_reachable hreach
  have e1 := hinv.activeHandle c1 h1
  have e2 := hinv.activeHandle c2 h2
  rw [e1] at e2
  exact Option.some.inj e2

/-- C5 witness: the state reached by one thread acquiring the lock,
checking the stop function and spawning sub-controller 0 is reachable and
has sub-controller 0 active; the theorem applied to it twice yields 0 = 0. -/
theorem maybeStart_at_most_one_active_controller_witness :
    Interleaving.Reachable Interleaving.wState3 ∧
    Interleaving.Active Interleaving.wState3 0 ∧ (0 : Nat) = 0 :=
  have hreach : Interleaving.Reachable Interleaving.wState3 :=
    Relation.ReflTransGen.tail
      (Relation.ReflTransGen.tail
        (Relation.ReflTransGen.single
          (Interleaving.Step.acquireLock Interleaving.initState 0 rfl rfl))
        (Interleaving.Step.notWatching Interleaving.wState1 0 rfl rfl))
      (Interleaving.Step.spawnController Interleaving.wState2 0 rfl)
  have hact : Interleaving.Active Interleaving.wState3 0 := Or.inl rfl
  ⟨hreach, hact,
    maybeStart_at_most_one_active_controller Interleaving.wState3 hreach 0 0
      hact hact⟩

end Dash0
